import Mathlib

/-!
Verification development for the GSA (global sensitivity analysis) engine of
UQLibrary-CourseProject, embedded shallowly from `src/gsa.py`.

Conventions of the embedding:
* numpy arrays become `Fin`-indexed functions over `ℚ` (row index first);
  exact rational arithmetic stands in for IEEE floats, except that the final
  divisions of the Saltelli index formulas are embedded with the IEEE
  division-by-zero semantics (`NpFloat`, `npDiv`), because the zero-variance
  behaviour of `calculate_sobol` depends on `0/0 = NaN`.
* external library calls (the SALib quasi-random Sobol sequence,
  `scipy.stats.norm.ppf`, `np.sqrt`, and the `np.random` drawing primitives)
  are abstracted as parameters collected in the `Externals` structure; the
  repository's own code is embedded term by term.
* Python exceptions become `Except String`; a raised exception is
  `Except.error` with a message identifying the Python error.
* `str.lower()` is embedded as `pyLower` (character-wise lowercasing), since
  that is exactly what the dispatch in `get_samp_dist` uses.
-/

/-- Embedding of Python's `str.lower()` used by `get_samp_dist` dispatch. -/
def pyLower (s : String) : String := String.mk (s.data.map Char.toLower)

/-- Value of one entry of a numpy float array as produced by the index
formulas: either a finite value, NaN, or a signed infinity.  Only the final
divisions can leave the finite range (all other arithmetic in
`calculate_sobol` is exact on finite inputs). -/
inductive NpFloat : Type
  | val (q : ℚ)
  | nan
  | posInf
  | negInf
deriving DecidableEq

/-- IEEE-style division of two finite values, as numpy performs it:
`x/0` is NaN when `x = 0` and a signed infinity otherwise. -/
def npDiv (a b : ℚ) : NpFloat :=
  if b = 0 then
    if a = 0 then NpFloat.nan
    else if 0 < a then NpFloat.posInf
    else NpFloat.negInf
  else NpFloat.val (a / b)

/-- Embedding of `np.mean(v, axis=0)` for one column: sum over the rows
divided by the number of rows. -/
def npMean {N : ℕ} (v : Fin N → ℚ) : ℚ := (∑ k, v k) / (N : ℚ)

/-- Embedding of `np.var(v, axis=0)` for one column: the population variance
(`ddof=0`, numpy's default), i.e. the mean of squared deviations from the
mean. -/
def npVar {N : ℕ} (v : Fin N → ℚ) : ℚ := npMean (fun k => (v k - npMean v) ^ 2)

/-- Embedding of `np.concatenate((a, b), axis=0)`: rows of `a` followed by
rows of `b`. -/
def vconcat {α : Type} {N M : ℕ} (a : Fin N → α) (b : Fin M → α) : Fin (N + M) → α :=
  fun k =>
    if h : (k : ℕ) < N then a ⟨k, h⟩
    else b ⟨(k : ℕ) - N, by have hk := k.isLt; omega⟩

/-- Embedding of `calculate_sobol` (src/gsa.py lines 171-229).  Inputs are the
evaluation tensors; `f_d` is the pooled `2N x n_qoi` array.  The code first
computes `fDvar = np.var(f_d, axis=0)`, then fills the `n_qoi x n_poi` output
matrices row by row with the Saltelli estimators
`sobol_base[q,i] = mean(f_b[:,q]*(f_ab[:,i,q]-f_a[:,q]))/fDvar[q]` and
`sobol_tot[q,i] = mean((f_a[:,q]-f_ab[:,i,q])^2)/(2*fDvar[q])`.  The
`n_qoi == 1` branch of the source computes the same formula with the
`n_qoi` axis squeezed away, so both branches are embedded uniformly with an
explicit `n_qoi` axis.  The output matrices are lists of rows so that their
shape is part of the value, as for the numpy arrays. -/
def calculate_sobol {N n_poi n_qoi : ℕ}
    (f_a f_b : Fin N → Fin n_qoi → ℚ)
    (f_ab : Fin N → Fin n_poi → Fin n_qoi → ℚ)
    (f_d : Fin (N + N) → Fin n_qoi → ℚ) :
    List (List NpFloat) × List (List NpFloat) :=
  let fDvar : Fin n_qoi → ℚ := fun q => npVar fun k => f_d k q
  let sobol_base : List (List NpFloat) :=
    List.ofFn fun q : Fin n_qoi => List.ofFn fun i : Fin n_poi =>
      npDiv (npMean fun k => f_b k q * (f_ab k i q - f_a k q)) (fDvar q)
  let sobol_tot : List (List NpFloat) :=
    List.ofFn fun q : Fin n_qoi => List.ofFn fun i : Fin n_poi =>
      npDiv (npMean fun k => (f_a k q - f_ab k i q) ^ 2) (2 * fDvar q)
  (sobol_base, sobol_tot)

/-- Result array of `calculate_sobol` with its numpy dimensionality: the
source returns 1-D arrays (shape `(n_poi,)`) from its `n_qoi == 1` branch
and 2-D arrays (shape `(n_qoi, n_poi)`) from the general branch. -/
inductive NpMat : Type
  | one (v : List NpFloat)
  | two (rows : List (List NpFloat))
deriving DecidableEq

/-- Whether an `NpMat` has the given numpy shape tuple: `[p]` for a 1-D
array of length `p`, `[q, p]` for a 2-D array of `q` rows of `p` entries. -/
def NpMat.hasShape : NpMat → List ℕ → Bool
  | NpMat.one v, [p] => v.length == p
  | NpMat.two rows, [q, p] => rows.length == q && rows.all fun r => r.length == p
  | _, _ => false

/-- Embedding of `calculate_sobol` including the dimensionality of its
return arrays.  The source branches on `f_ab.ndim`: when the model has one
output, `get_sobol_sample` stores `f_ab` with the output axis squeezed away
(`ndim == 2`), and lines 214-219 then reassign `sobol_base` and `sobol_tot`
to `np.mean(...)/fDvar`, 1-D arrays of shape `(n_poi,)` — the preallocated
`(n_qoi, n_poi)` matrices are discarded.  In the typed embedding that branch
is exactly `n_qoi = 1`, and the squeezed outputs read every tensor at output
index `0`.  Otherwise the general branch fills the `n_qoi x n_poi` matrices
of `calculate_sobol`.  (The `ndim == 1` case of the source is unreachable
from `get_sobol_sample`, which always builds a 2-D or 3-D `f_ab`.) -/
def calculate_sobol_np {N n_poi n_qoi : ℕ}
    (f_a f_b : Fin N → Fin n_qoi → ℚ)
    (f_ab : Fin N → Fin n_poi → Fin n_qoi → ℚ)
    (f_d : Fin (N + N) → Fin n_qoi → ℚ) :
    NpMat × NpMat :=
  if h : n_qoi = 1 then
    let q0 : Fin n_qoi := ⟨0, by omega⟩
    let fDvar := npVar fun k => f_d k q0
    (NpMat.one (List.ofFn fun i : Fin n_poi =>
        npDiv (npMean fun k => f_b k q0 * (f_ab k i q0 - f_a k q0)) fDvar),
      NpMat.one (List.ofFn fun i : Fin n_poi =>
        npDiv (npMean fun k => (f_a k q0 - f_ab k i q0) ^ 2) (2 * fDvar)))
  else
    (NpMat.two (calculate_sobol f_a f_b f_ab f_d).1,
      NpMat.two (calculate_sobol f_a f_b f_ab f_d).2)

/-- Embedding of the loop body statement `samp_ab = samp_a.copy();
samp_ab[:, i] = samp_b[:, i]` of `get_sobol_sample`: a copy of sample `a`
with column `i` replaced by column `i` of sample `b`. -/
def mixed_design {N n_poi : ℕ} (a b : Fin N → Fin n_poi → ℚ) (i : Fin n_poi) :
    Fin N → Fin n_poi → ℚ :=
  fun k j => if j = i then b k j else a k j

/-- One iteration of the `for i_param in range(0, model.n_poi)` loop of
`get_sobol_sample`: build the mixed design, evaluate the model on it (the
call is recorded in the trace component), and write the result into column
`i` of the `f_ab` tensor. -/
def sobol_ab_step {N n_poi n_qoi : ℕ}
    (e : (Fin N → Fin n_poi → ℚ) → Fin N → Fin n_qoi → ℚ)
    (a b : Fin N → Fin n_poi → ℚ)
    (st : (Fin N → Fin n_poi → Fin n_qoi → ℚ) × List (Fin N → Fin n_poi → ℚ))
    (i : Fin n_poi) :
    (Fin N → Fin n_poi → Fin n_qoi → ℚ) × List (Fin N → Fin n_poi → ℚ) :=
  let samp_ab := mixed_design a b i
  let f_i := e samp_ab
  (fun k j q => if j = i then f_i k q else st.1 k j q, st.2 ++ [samp_ab])

/-- Return value of `get_sobol_sample`, together with the instrumentation
field `eval_calls`: the list of sample matrices passed to `model.eval_fcn`,
in call order.  Every recorded matrix has `N` rows by its type. -/
structure SobolSampleOut (N n_poi n_qoi : ℕ) : Type where
  f_a : Fin N → Fin n_qoi → ℚ
  f_b : Fin N → Fin n_qoi → ℚ
  f_ab : Fin N → Fin n_poi → Fin n_qoi → ℚ
  f_d : Fin (N + N) → Fin n_qoi → ℚ
  samp_d : Fin (N + N) → Fin n_poi → ℚ
  eval_calls : List (Fin N → Fin n_poi → ℚ)

/-- Embedding of `get_sobol_sample` (src/gsa.py lines 117-169) for the paired
branch (`model.dist` equal to `uniform` or `saltellinormal`, the branch the
Saltelli pipeline uses), after the pair `(samp_a, samp_b)` has been drawn by
`model.sample`.  `e` is `model.eval_fcn`.  The function evaluates `f_a` and
`f_b`, concatenates them into `f_d`, then runs the per-parameter loop
building `f_ab`; each model evaluation is appended to the `eval_calls`
trace at its call site.  The `f_ab` accumulator starts from the
uninitialised `np.empty` array, embedded as the all-zero tensor (every
column is overwritten by the loop).  The `n_qoi == 1` branch of the source
stores `f_ab` with the `n_qoi` axis squeezed away; both branches are
embedded with the explicit axis. -/
def get_sobol_sample {N n_poi n_qoi : ℕ}
    (e : (Fin N → Fin n_poi → ℚ) → Fin N → Fin n_qoi → ℚ)
    (samp_a samp_b : Fin N → Fin n_poi → ℚ) :
    SobolSampleOut N n_poi n_qoi :=
  let f_a := e samp_a
  let f_b := e samp_b
  let f_d := vconcat f_a f_b
  let st := (List.finRange n_poi).foldl (sobol_ab_step e samp_a samp_b)
    (fun _ _ _ => 0, [samp_a, samp_b])
  { f_a := f_a, f_b := f_b, f_ab := st.1, f_d := f_d,
    samp_d := vconcat samp_a samp_b, eval_calls := st.2 }

/-- Embedding of `saltelli_sample` (src/gsa.py lines 353-378).  The single
quasi-random base sequence `base_sample` of dimension `2*n_poi` (embedded as
`n_poi + n_poi` columns) is the result of the external call
`SALib sobol_sample(n_samp_sobol, n_poi*2)` and is passed as a parameter.
The first `n_poi` columns are rescaled to `[lower, upper]` per parameter to
form sample a, the remaining `n_poi` columns likewise form sample b. -/
def saltelli_sample {n n_poi : ℕ}
    (base_sample : Fin n → Fin (n_poi + n_poi) → ℚ)
    (dist_param : Fin 2 → Fin n_poi → ℚ) :
    (Fin n → Fin n_poi → ℚ) × (Fin n → Fin n_poi → ℚ) :=
  let base_a : Fin n → Fin n_poi → ℚ := fun k j => base_sample k (Fin.castAdd n_poi j)
  let base_b : Fin n → Fin n_poi → ℚ := fun k j => base_sample k (Fin.natAdd n_poi j)
  let samp_a := fun k j => dist_param 0 j + (dist_param 1 j - dist_param 0 j) * base_a k j
  let samp_b := fun k j => dist_param 0 j + (dist_param 1 j - dist_param 0 j) * base_b k j
  (samp_a, samp_b)

/-- Embedding of `saltelli_normal` (src/gsa.py lines 380-407).  Same single
quasi-random base as `saltelli_sample`; each half is transformed through the
inverse standard-normal CDF `norm_ppf` (`scipy.stats.norm.ppf`, abstract) and
then scaled by `sqrtf` of the variance row (`np.sqrt`, abstract) and shifted
by the mean row. -/
def saltelli_normal {n n_poi : ℕ}
    (base_sample : Fin n → Fin (n_poi + n_poi) → ℚ)
    (norm_ppf : ℚ → ℚ) (sqrtf : ℚ → ℚ)
    (dist_param : Fin 2 → Fin n_poi → ℚ) :
    (Fin n → Fin n_poi → ℚ) × (Fin n → Fin n_poi → ℚ) :=
  let base_a : Fin n → Fin n_poi → ℚ := fun k j => base_sample k (Fin.castAdd n_poi j)
  let base_b : Fin n → Fin n_poi → ℚ := fun k j => base_sample k (Fin.natAdd n_poi j)
  let transformA := fun k j => norm_ppf (base_a k j)
  let transformB := fun k j => norm_ppf (base_b k j)
  let samp_a := fun k j => transformA k j * sqrtf (dist_param 1 j) + dist_param 0 j
  let samp_b := fun k j => transformB k j * sqrtf (dist_param 1 j) + dist_param 0 j
  (samp_a, samp_b)

/-- The external stochastic and numeric primitives used by `get_samp_dist`
and its sampler closures.  They are library calls (`SALib`, `scipy`,
`np.random`, `np.sqrt`), not repository code, so they are abstracted as
function parameters.  The `np.random` draws take a call-counter argument so
that distinct calls can yield distinct draws. -/
structure Externals (n_poi : ℕ) : Type where
  sobol_seq : (n : ℕ) → Fin n → Fin (n_poi + n_poi) → ℚ
  norm_ppf : ℚ → ℚ
  sqrt : ℚ → ℚ
  randn : ℕ → (n : ℕ) → Fin n → Fin n_poi → ℚ
  expdraw : ℕ → (n : ℕ) → Fin n → Fin n_poi → ℚ
  betadraw : ℕ → (n : ℕ) → Fin n → Fin n_poi → ℚ
  rand : ℕ → (n : ℕ) → Fin n → Fin n_poi → ℚ
  fcn_inverse_cdf : ℚ → ℚ

/-- Shape of the sampler closure attached to the model by `get_samp_dist`:
either a paired Saltelli sampler returning `(samp_a, samp_b)` from one call,
or a plain per-call sampler returning a single matrix (with a call counter
for the underlying pseudo-random stream). -/
inductive SampFn (n_poi : ℕ) : Type
  | pair (f : (n : ℕ) → (Fin n → Fin n_poi → ℚ) × (Fin n → Fin n_poi → ℚ))
  | single (g : (call : ℕ) → (n : ℕ) → Fin n → Fin n_poi → ℚ)

/-- Whether a sampler closure is the paired Saltelli kind. -/
def SampFn.isPair {n_poi : ℕ} : SampFn n_poi → Bool
  | SampFn.pair _ => true
  | SampFn.single _ => false

/-- Embedding of `get_samp_dist` (src/gsa.py lines 314-349): dispatch on
`model.dist.lower()` that builds the sampler closure attached to the model.
The `normal` tag attaches `np.random.randn(n, n_poi)*sqrt(var)+mean` (a
pseudo-random single-matrix sampler); `saltellinormal` and `uniform` attach
the paired quasi-random Saltelli samplers; `exponential` and `beta` attach
`np.random` single-matrix draws (abstracted whole, since their bodies are
pure library calls); the comparison with the literal `'InverseCDF'` is kept
as in the source (it can never match a lowercased string).  Any other tag
raises the exception of lines 346-347, embedded as `Except.error`. -/
def get_samp_dist {n_poi : ℕ} (ext : Externals n_poi) (dist : String)
    (dist_param : Fin 2 → Fin n_poi → ℚ) : Except String (SampFn n_poi) :=
  if pyLower dist = "normal" then
    Except.ok (SampFn.single fun c n k j =>
      ext.randn c n k j * ext.sqrt (dist_param 1 j) + dist_param 0 j)
  else if pyLower dist = "saltellinormal" then
    Except.ok (SampFn.pair fun n =>
      saltelli_normal (ext.sobol_seq n) ext.norm_ppf ext.sqrt dist_param)
  else if pyLower dist = "uniform" then
    Except.ok (SampFn.pair fun n => saltelli_sample (ext.sobol_seq n) dist_param)
  else if pyLower dist = "exponential" then
    Except.ok (SampFn.single fun c n => ext.expdraw c n)
  else if pyLower dist = "beta" then
    Except.ok (SampFn.single fun c n => ext.betadraw c n)
  else if pyLower dist = "InverseCDF" then
    Except.ok (SampFn.single fun c n k j => ext.fcn_inverse_cdf (ext.rand c n k j))
  else
    Except.error "Invalid value for gsa_options.dist. Supported distributions are normal, uniform, exponential, beta, and InverseCDF"

/-- Matrix product over `ℚ`, embedding `np.matmul` for 2-D arrays. -/
def matmul {a b c : ℕ} (M : Fin a → Fin b → ℚ) (M2 : Fin b → Fin c → ℚ) :
    Fin a → Fin c → ℚ :=
  fun i j => ∑ m, M i m * M2 m j

/-- The all-ones `(n_poi+1) x n_poi` matrix `J = np.ones((n_poi+1, n_poi))`
of `get_morris_poi_sample`. -/
def onesJ (n_poi : ℕ) : Fin (n_poi + 1) → Fin n_poi → ℚ := fun _ _ => 1

/-- The strictly-lower-triangular all-ones matrix
`B = np.tril(np.ones(J.shape), -1)` of `get_morris_poi_sample`. -/
def trilB (n_poi : ℕ) : Fin (n_poi + 1) → Fin n_poi → ℚ :=
  fun r c => if (c : ℕ) < (r : ℕ) then 1 else 0

/-- The random diagonal matrix
`D = np.diag(np.random.choice(np.array([1,-1]), size=(n_poi,)))` of
`get_morris_poi_sample`; the drawn diagonal entries are the parameter `d`. -/
def diagD {n_poi : ℕ} (d : Fin n_poi → ℚ) : Fin n_poi → Fin n_poi → ℚ :=
  fun a b => if a = b then d a else 0

/-- The random permutation matrix `P` of `get_morris_poi_sample`, i.e.
`np.identity(n_poi)` with its rows shuffled: row `a` is the standard basis
row `e_{s a}` for the drawn permutation `s`. -/
def permP {n_poi : ℕ} (s : Equiv.Perm (Fin n_poi)) : Fin n_poi → Fin n_poi → ℚ :=
  fun a b => if b = s a then 1 else 0

/-- Embedding of the per-trajectory matrix built inside the loop of
`get_morris_poi_sample` (src/gsa.py line 300, `random == True` branch):
`samp_mat = np.matmul(jTheta + pert/2*(np.matmul(2*B-J, D) + J), P)`, where
`jTheta = random_samp[i_samp,]*J` broadcasts the base point over the rows.
Note the permutation multiplies the whole sum, including the base-point
term. -/
def morris_samp_mat {n_poi : ℕ} (t d : Fin n_poi → ℚ) (s : Equiv.Perm (Fin n_poi))
    (pert : ℚ) : Fin (n_poi + 1) → Fin n_poi → ℚ :=
  matmul
    (fun r c => t c * onesJ n_poi r c +
      pert / 2 *
        (matmul (fun x y => 2 * trilB n_poi x y - onesJ n_poi x y) (diagD d) r c +
          onesJ n_poi r c))
    (permP s)

/-- Trajectory-block formula exactly as the specification sentence words it:
`M = theta*J + (Delta/2)*((2B - J)*D + J)*P`, with the permutation applied
only to the perturbation term and not to the broadcast base point.  Stated
from the spec for comparison with the source formula `morris_samp_mat`. -/
def morris_block_claim {n_poi : ℕ} (t d : Fin n_poi → ℚ) (s : Equiv.Perm (Fin n_poi))
    (pert : ℚ) : Fin (n_poi + 1) → Fin n_poi → ℚ :=
  fun r c => t c * onesJ n_poi r c +
    pert / 2 *
      matmul
        (fun x y =>
          matmul (fun a b => 2 * trilB n_poi a b - onesJ n_poi a b) (diagD d) x y +
            onesJ n_poi x y)
        (permP s) r c

/-- Embedding of `get_morris_poi_sample` (src/gsa.py lines 283-310) for the
default `random = True` branch.  The base points `random_samp` (the result of
the `param_dist(n_samp)` draw), the diagonal sign draws `d` and the row
permutations `s` of each trajectory are parameters, since they come from the
external random generators.  Trajectory `i` occupies the `n_poi+1`
consecutive rows starting at row `i*(n_poi+1)` of the stacked sample, as in
`morris_samp[i_samp*(n_poi+1):(i_samp+1)*(n_poi+1), :] = samp_mat`. -/
def get_morris_poi_sample (n_samp n_poi : ℕ)
    (random_samp : Fin n_samp → Fin n_poi → ℚ)
    (d : Fin n_samp → Fin n_poi → ℚ)
    (s : Fin n_samp → Equiv.Perm (Fin n_poi))
    (pert_distance : ℚ) :
    Fin (n_samp * (n_poi + 1)) → Fin n_poi → ℚ :=
  fun r c =>
    have hq : (r : ℕ) / (n_poi + 1) < n_samp :=
      (Nat.div_lt_iff_lt_mul (Nat.succ_pos n_poi)).mpr r.isLt
    morris_samp_mat (random_samp ⟨_, hq⟩) (d ⟨_, hq⟩) (s ⟨_, hq⟩) pert_distance
      ⟨(r : ℕ) % (n_poi + 1), Nat.mod_lt _ (Nat.succ_pos n_poi)⟩ c

/-- Embedding of `calculate_morris` (src/gsa.py lines 236-279).  The function
evaluates the model once on the stacked Morris sample, then computes
`n_samp = morris_samp.shape[0]/(n_poi+1)` with Python's true division, so
`n_samp` is a Python float; the next statement
`np.empty((n_samp, n_poi+1, n_qoi))` rejects a float dimension and raises
`TypeError` unconditionally.  (Were that repaired, `range(n_samp)` would
raise the same `TypeError`, and the loop body writes
`f_eval_seperated[n_samp,:,:]` — the total count, not the loop index
`i_samp` — an out-of-range index.)  The embedding therefore returns the
unconditional error after the single model evaluation. -/
def calculate_morris {M n_poi n_qoi : ℕ}
    (eval_fcn : (Fin M → Fin n_poi → ℚ) → Fin M → Fin n_qoi → ℚ)
    (morris_samp : Fin M → Fin n_poi → ℚ)
    (pert_distance : ℚ) :
    Except String (List (List ℚ) × List (List ℚ) × List (List ℚ)) :=
  let _f_eval_compact := eval_fcn morris_samp
  let _pert := pert_distance
  Except.error "TypeError: 'float' object cannot be interpreted as an integer"

/-- Embedding of the `GsaOptions` attribute record (src/gsa.py lines 19-32),
after `__init__` has run. -/
structure GsaOptions : Type where
  run : Bool
  run_sobol : Bool
  run_morris : Bool
  n_samp_sobol : ℕ
  n_samp_morris : ℕ
  l_morris : ℕ

/-- Embedding of `GsaOptions.__init__`: when `run` is false, both
`run_sobol` and `run_morris` are forced to false regardless of the
arguments; otherwise the arguments are stored; the sample counts and
`l_morris` are stored unconditionally. -/
def GsaOptions.make (run run_sobol run_morris : Bool)
    (n_samp_sobol n_samp_morris l_morris : ℕ) : GsaOptions :=
  if run = false then
    { run := run, run_sobol := false, run_morris := false,
      n_samp_sobol := n_samp_sobol, n_samp_morris := n_samp_morris,
      l_morris := l_morris }
  else
    { run := run, run_sobol := run_sobol, run_morris := run_morris,
      n_samp_sobol := n_samp_sobol, n_samp_morris := n_samp_morris,
      l_morris := l_morris }

/-- Embedding of the `GsaResults` record (src/gsa.py lines 34-48).  Every
field defaults to the scalar `np.nan` placeholder, embedded as `none`; a
field holds `some` array exactly when a pipeline wrote to it.  Matrices are
stored as lists of rows. -/
structure GsaResults : Type where
  sobol_base : Option (List (List NpFloat)) := none
  sobol_tot : Option (List (List NpFloat)) := none
  f_a : Option (List (List ℚ)) := none
  f_b : Option (List (List ℚ)) := none
  f_d : Option (List (List ℚ)) := none
  f_ab : Option (List (List (List ℚ))) := none
  samp_d : Option (List (List ℚ)) := none
  morris_variance : Option (List (List ℚ)) := none
  morris_mean_abs : Option (List (List ℚ)) := none
  morris_mean : Option (List (List ℚ)) := none

/-- The freshly constructed `GsaResults()` value with all fields at their
`np.nan` defaults. -/
def GsaResults.init : GsaResults := {}

/-- Conversion of a `Fin`-indexed matrix to its list-of-rows form, used when
storing evaluation tensors into `GsaResults`. -/
def matToList {n m : ℕ} (M : Fin n → Fin m → ℚ) : List (List ℚ) :=
  List.ofFn fun i => List.ofFn fun j => M i j

/-- Conversion of a rank-3 tensor to nested lists, used for `f_ab`. -/
def tensToList {n m p : ℕ} (T : Fin n → Fin m → Fin p → ℚ) :
    List (List (List ℚ)) :=
  List.ofFn fun i => List.ofFn fun j => List.ofFn fun k => T i j k

/-- Embedding of the sampling step of the Sobol branch of `run_gsa`
(src/gsa.py lines 143-148): the paired branch unpacks
`(samp_a, samp_b) = model.sample(n)`; the fallback branch calls
`model.sample(n)` twice in succession (two distinct pseudo-random draws,
call counters 0 and 1).  The mismatched cases cannot be produced by
`get_samp_dist` but are kept as errors for totality (in Python they would
fail at tuple unpacking). -/
def sobol_draw {n_poi : ℕ} (dist : String) (sample : SampFn n_poi) (n : ℕ) :
    Except String ((Fin n → Fin n_poi → ℚ) × (Fin n → Fin n_poi → ℚ)) :=
  if pyLower dist = "uniform" ∨ pyLower dist = "saltellinormal" then
    match sample with
    | SampFn.pair f => Except.ok (f n)
    | SampFn.single _ => Except.error "TypeError: cannot unpack sample matrix"
  else
    match sample with
    | SampFn.single g => Except.ok (g 0 n, g 1 n)
    | SampFn.pair _ => Except.error "TypeError: unexpected paired sampler"

/-- Embedding of `run_gsa` (src/gsa.py lines 53-109).  First `get_samp_dist`
attaches the sampler (any dispatch exception propagates).  The Morris branch
computes the perturbation distance `l/(2*(l-1))` — a `ZeroDivisionError`
when `l_morris == 1` — and then calls
`get_morris_poi_sample(model.dist, ...)`: the first positional argument is
the distribution *string*, and `get_morris_poi_sample` immediately calls it,
so the branch raises `TypeError: 'str' object is not callable`.  The Sobol
branch draws the sample pair, evaluates via `get_sobol_sample`, computes the
indices with `calculate_sobol`, and stores everything in the results
record. -/
def run_gsa {n_poi n_qoi : ℕ} (ext : Externals n_poi)
    (dist : String) (dist_param : Fin 2 → Fin n_poi → ℚ)
    (eval_fcn : (n : ℕ) → (Fin n → Fin n_poi → ℚ) → Fin n → Fin n_qoi → ℚ)
    (opts : GsaOptions) : Except String GsaResults := do
  let sample ← get_samp_dist ext dist dist_param
  let r0 := GsaResults.init
  if opts.run_morris then
    if opts.l_morris = 1 then
      Except.error "ZeroDivisionError: division by zero"
    else
      Except.error "TypeError: 'str' object is not callable"
  else if opts.run_sobol then
    let ab ← sobol_draw dist sample opts.n_samp_sobol
    let out := get_sobol_sample (eval_fcn opts.n_samp_sobol) ab.1 ab.2
    let sb := calculate_sobol out.f_a out.f_b out.f_ab out.f_d
    pure { r0 with
      f_d := some (matToList out.f_d), f_a := some (matToList out.f_a),
      f_b := some (matToList out.f_b), f_ab := some (tensToList out.f_ab),
      samp_d := some (matToList out.samp_d),
      sobol_base := some sb.1, sobol_tot := some sb.2 }
  else
    pure r0

/-- Trivial instantiation of the external primitives over one parameter,
used for concrete evaluations. -/
def ext0 : Externals 1 :=
  ⟨fun _ _ _ => 0, fun q => q, fun q => q, fun _ _ _ _ => 0, fun _ _ _ _ => 0,
    fun _ _ _ _ => 0, fun _ _ _ _ => 0, fun q => q⟩

/-- Constant two-row parameter matrix over one parameter, used for concrete
evaluations. -/
def dp0 : Fin 2 → Fin 1 → ℚ := fun _ _ => 0

/-!  Helper lemmas. -/

theorem ofFn_getElem? {α : Type} {n : ℕ} (f : Fin n → α) (i : Fin n) :
    (List.ofFn f)[(i : ℕ)]? = some (f i) := by
  rw [List.getElem?_eq_getElem (by simp [i.isLt])]
  simp

theorem npMean_zero {N : ℕ} : npMean (fun _ : Fin N => (0 : ℚ)) = 0 := by
  simp [npMean]

theorem npMean_const {N : ℕ} (h : N ≠ 0) (c : ℚ) :
    npMean (fun _ : Fin N => c) = c := by
  have hN : ((N : ℚ)) ≠ 0 := Nat.cast_ne_zero.mpr h
  simp [npMean, Finset.sum_const, Finset.card_univ, mul_comm]
  field_simp

theorem npVar_const {N : ℕ} (c : ℚ) : npVar (fun _ : Fin N => c) = 0 := by
  rcases Nat.eq_zero_or_pos N with h | h
  · subst h
    simp [npVar, npMean]
  · rw [npVar, npMean_const (Nat.pos_iff_ne_zero.mp h) c]
    simpa using npMean_zero

/-- C1: for evaluation arrays `f_a`, `f_b` of `N` rows, the mixed tensor
`f_ab`, and the pooled array formed by concatenating `f_a` and `f_b`,
`calculate_sobol` returns at output `q` and parameter `i` the first-order
index `mean(f_b[:,q]*(f_ab[:,i,q]-f_a[:,q]))/Var_q` and the total-effect
index `mean((f_a[:,q]-f_ab[:,i,q])^2)/(2*Var_q)`, where `Var_q` is the
population variance of the pooled column `q` over the `2N` rows. -/
theorem calculate_sobol_saltelli_formulas {N n_poi n_qoi : ℕ}
    (f_a f_b : Fin N → Fin n_qoi → ℚ)
    (f_ab : Fin N → Fin n_poi → Fin n_qoi → ℚ)
    (q : Fin n_qoi) (i : Fin n_poi) :
    ((calculate_sobol f_a f_b f_ab (vconcat f_a f_b)).1[(q : ℕ)]?.bind
        fun r => r[(i : ℕ)]?)
      = some (npDiv (npMean fun k => f_b k q * (f_ab k i q - f_a k q))
          (npVar fun k => vconcat f_a f_b k q))
    ∧ ((calculate_sobol f_a f_b f_ab (vconcat f_a f_b)).2[(q : ℕ)]?.bind
        fun r => r[(i : ℕ)]?)
      = some (npDiv (npMean fun k => (f_a k q - f_ab k i q) ^ 2)
          (2 * npVar fun k => vconcat f_a f_b k q)) := by
  constructor <;> simp [calculate_sobol, ofFn_getElem?]

/-- C7: when output `q` is constant across `f_a`, `f_b` and every mixed
design, the pooled variance is zero and `calculate_sobol` reports NaN for
both indices of every parameter at that output (in-band, no exception: the
embedding is a total function). -/
theorem calculate_sobol_const_output_nan {N n_poi n_qoi : ℕ}
    (f_a f_b : Fin N → Fin n_qoi → ℚ)
    (f_ab : Fin N → Fin n_poi → Fin n_qoi → ℚ)
    (q : Fin n_qoi) (c : ℚ)
    (ha : ∀ k, f_a k q = c) (hb : ∀ k, f_b k q = c)
    (hab : ∀ k i, f_ab k i q = c) (i : Fin n_poi) :
    ((calculate_sobol f_a f_b f_ab (vconcat f_a f_b)).1[(q : ℕ)]?.bind
        fun r => r[(i : ℕ)]?) = some NpFloat.nan
    ∧ ((calculate_sobol f_a f_b f_ab (vconcat f_a f_b)).2[(q : ℕ)]?.bind
        fun r => r[(i : ℕ)]?) = some NpFloat.nan := by
  have hd : (fun k => vconcat f_a f_b k q) = fun _ : Fin (N + N) => c := by
    funext k
    by_cases h : (k : ℕ) < N
    · simp [vconcat, h, ha]
    · simp [vconcat, h, hb]
  have h1 : (npMean fun k => f_b k q * (f_ab k i q - f_a k q)) = 0 := by
    have he : (fun k : Fin N => f_b k q * (f_ab k i q - f_a k q))
        = fun _ => (0 : ℚ) := by
      funext k
      rw [ha, hab, hb]
      ring
    rw [he, npMean_zero]
  have h2 : (npMean fun k => (f_a k q - f_ab k i q) ^ 2) = 0 := by
    have he : (fun k : Fin N => (f_a k q - f_ab k i q) ^ 2)
        = fun _ => (0 : ℚ) := by
      funext k
      rw [ha, hab]
      ring
    rw [he, npMean_zero]
  have hv : npVar (fun k => vconcat f_a f_b k q) = 0 := by
    rw [hd, npVar_const]
  constructor <;> simp [calculate_sobol, ofFn_getElem?, h1, h2, hv, npDiv]

/-- Witness for C7 at the concrete constant input `5` with one sample, one
parameter and one output. -/
theorem calculate_sobol_const_output_nan_witness :
    ((calculate_sobol (fun (_ : Fin 1) (_ : Fin 1) => (5 : ℚ))
        (fun (_ : Fin 1) (_ : Fin 1) => (5 : ℚ))
        (fun (_ : Fin 1) (_ : Fin 1) (_ : Fin 1) => (5 : ℚ))
        (vconcat (fun (_ : Fin 1) (_ : Fin 1) => (5 : ℚ))
          (fun (_ : Fin 1) (_ : Fin 1) => (5 : ℚ)))).1[((0 : Fin 1) : ℕ)]?.bind
          fun r => r[((0 : Fin 1) : ℕ)]?) = some NpFloat.nan
    ∧ ((calculate_sobol (fun (_ : Fin 1) (_ : Fin 1) => (5 : ℚ))
        (fun (_ : Fin 1) (_ : Fin 1) => (5 : ℚ))
        (fun (_ : Fin 1) (_ : Fin 1) (_ : Fin 1) => (5 : ℚ))
        (vconcat (fun (_ : Fin 1) (_ : Fin 1) => (5 : ℚ))
          (fun (_ : Fin 1) (_ : Fin 1) => (5 : ℚ)))).2[((0 : Fin 1) : ℕ)]?.bind
          fun r => r[((0 : Fin 1) : ℕ)]?) = some NpFloat.nan :=
  calculate_sobol_const_output_nan (fun _ _ => 5) (fun _ _ => 5) (fun _ _ _ => 5)
    0 5 (fun _ => rfl) (fun _ => rfl) (fun _ _ => rfl) 0

/-- C8 counterexample: at one sample, one parameter and one output, the
first-order index array that `calculate_sobol` returns is not an array of
shape `n_qoi x n_poi = (1, 1)`: the `n_qoi == 1` branch of the source
reassigns it to a 1-D array of shape `(n_poi,)`. -/
theorem calculate_sobol_np_shape_cex :
    ¬ ((calculate_sobol_np (fun (_ : Fin 1) (_ : Fin 1) => (0 : ℚ))
        (fun (_ : Fin 1) (_ : Fin 1) => (0 : ℚ))
        (fun (_ : Fin 1) (_ : Fin 1) (_ : Fin 1) => (0 : ℚ))
        (fun (_ : Fin (1 + 1)) (_ : Fin 1) => (0 : ℚ))).1.hasShape [1, 1]
      = true) := by
  simp [calculate_sobol_np, NpMat.hasShape]

/-- C8 amended: for a valid configuration with at least one parameter and at
least two outputs, both returned Sobol index arrays have shape
`n_qoi x n_poi`; with exactly one output the source's squeezed branch
returns 1-D arrays of shape `(n_poi,)` instead. -/
theorem calculate_sobol_np_shape {N n_poi n_qoi : ℕ}
    (h1 : 1 ≤ n_poi) (h2 : 1 ≤ n_qoi)
    (f_a f_b : Fin N → Fin n_qoi → ℚ)
    (f_ab : Fin N → Fin n_poi → Fin n_qoi → ℚ)
    (f_d : Fin (N + N) → Fin n_qoi → ℚ) :
    (calculate_sobol_np f_a f_b f_ab f_d).1.hasShape
        (if n_qoi = 1 then [n_poi] else [n_qoi, n_poi]) = true
    ∧ (calculate_sobol_np f_a f_b f_ab f_d).2.hasShape
        (if n_qoi = 1 then [n_poi] else [n_qoi, n_poi]) = true := by
  by_cases h : n_qoi = 1
  · subst h
    constructor <;> simp [calculate_sobol_np, NpMat.hasShape]
  · constructor <;> simp [calculate_sobol_np, h, NpMat.hasShape, calculate_sobol]

/-- Witness for C8 at two concrete configurations: two outputs and one
parameter (matrix shape `(2, 1)`), and one output and one parameter
(squeezed shape `(1,)`). -/
theorem calculate_sobol_np_shape_witness :
    ((calculate_sobol_np (fun (_ : Fin 1) (_ : Fin 2) => (0 : ℚ))
        (fun (_ : Fin 1) (_ : Fin 2) => (0 : ℚ))
        (fun (_ : Fin 1) (_ : Fin 1) (_ : Fin 2) => (0 : ℚ))
        (fun (_ : Fin (1 + 1)) (_ : Fin 2) => (0 : ℚ))).1.hasShape
        (if 2 = 1 then [1] else [2, 1]) = true
      ∧ (calculate_sobol_np (fun (_ : Fin 1) (_ : Fin 2) => (0 : ℚ))
        (fun (_ : Fin 1) (_ : Fin 2) => (0 : ℚ))
        (fun (_ : Fin 1) (_ : Fin 1) (_ : Fin 2) => (0 : ℚ))
        (fun (_ : Fin (1 + 1)) (_ : Fin 2) => (0 : ℚ))).2.hasShape
        (if 2 = 1 then [1] else [2, 1]) = true)
    ∧ ((calculate_sobol_np (fun (_ : Fin 1) (_ : Fin 1) => (0 : ℚ))
        (fun (_ : Fin 1) (_ : Fin 1) => (0 : ℚ))
        (fun (_ : Fin 1) (_ : Fin 1) (_ : Fin 1) => (0 : ℚ))
        (fun (_ : Fin (1 + 1)) (_ : Fin 1) => (0 : ℚ))).1.hasShape
        (if 1 = 1 then [1] else [1, 1]) = true
      ∧ (calculate_sobol_np (fun (_ : Fin 1) (_ : Fin 1) => (0 : ℚ))
        (fun (_ : Fin 1) (_ : Fin 1) => (0 : ℚ))
        (fun (_ : Fin 1) (_ : Fin 1) (_ : Fin 1) => (0 : ℚ))
        (fun (_ : Fin (1 + 1)) (_ : Fin 1) => (0 : ℚ))).2.hasShape
        (if 1 = 1 then [1] else [1, 1]) = true) :=
  ⟨calculate_sobol_np_shape (le_refl 1) (by decide) (fun _ _ => 0) (fun _ _ => 0)
      (fun _ _ _ => 0) (fun _ _ => 0),
    calculate_sobol_np_shape (le_refl 1) (le_refl 1) (fun _ _ => 0) (fun _ _ => 0)
      (fun _ _ _ => 0) (fun _ _ => 0)⟩

theorem finRange_getElem? {n : ℕ} (i : Fin n) :
    (List.finRange n)[(i : ℕ)]? = some i := by
  rw [List.getElem?_eq_getElem (by simp [i.isLt])]
  simp

theorem sobol_ab_foldl_trace {N n_poi n_qoi : ℕ}
    (e : (Fin N → Fin n_poi → ℚ) → Fin N → Fin n_qoi → ℚ)
    (a b : Fin N → Fin n_poi → ℚ) :
    ∀ (l : List (Fin n_poi))
      (st : (Fin N → Fin n_poi → Fin n_qoi → ℚ) × List (Fin N → Fin n_poi → ℚ)),
      (l.foldl (sobol_ab_step e a b) st).2 = st.2 ++ l.map (mixed_design a b) := by
  intro l
  induction l with
  | nil => intro st; simp
  | cons i tl ih =>
    intro st
    simp [List.foldl_cons, ih, sobol_ab_step]

theorem sobol_ab_foldl_acc {N n_poi n_qoi : ℕ}
    (e : (Fin N → Fin n_poi → ℚ) → Fin N → Fin n_qoi → ℚ)
    (a b : Fin N → Fin n_poi → ℚ) :
    ∀ (l : List (Fin n_poi))
      (st : (Fin N → Fin n_poi → Fin n_qoi → ℚ) × List (Fin N → Fin n_poi → ℚ))
      (k : Fin N) (j : Fin n_poi) (q : Fin n_qoi),
      (l.foldl (sobol_ab_step e a b) st).1 k j q
        = if j ∈ l then e (mixed_design a b j) k q else st.1 k j q := by
  intro l
  induction l with
  | nil => intro st k j q; simp
  | cons i tl ih =>
    intro st k j q
    rw [List.foldl_cons, ih]
    by_cases hj : j ∈ tl
    · simp [hj]
    · by_cases hji : j = i
      · subst hji
        simp [hj, sobol_ab_step]
      · simp [hj, hji, sobol_ab_step]

/-- C2: `get_sobol_sample` calls the model evaluation function exactly
`n_poi + 2` times, each time on an `N`-row sample matrix (row count fixed by
the type of `eval_calls` entries, so the total model evaluations are
`N*(n_poi+2)` rows): first on `samp_a`, then on `samp_b`, then once per
parameter on the mixed design; the `i`-th mixed design is the copy of sample
a with column `i` replaced by column `i` of sample b, and column `i` of the
returned `f_ab` tensor is its evaluation. -/
theorem get_sobol_sample_call_pattern {N n_poi n_qoi : ℕ}
    (e : (Fin N → Fin n_poi → ℚ) → Fin N → Fin n_qoi → ℚ)
    (a b : Fin N → Fin n_poi → ℚ) :
    (get_sobol_sample e a b).eval_calls
        = [a, b] ++ (List.finRange n_poi).map (mixed_design a b)
    ∧ (get_sobol_sample e a b).eval_calls.length = n_poi + 2
    ∧ (∀ i : Fin n_poi,
        (get_sobol_sample e a b).eval_calls[((i : ℕ) + 2)]?
          = some (mixed_design a b i))
    ∧ (∀ (k : Fin N) (i : Fin n_poi) (q : Fin n_qoi),
        (get_sobol_sample e a b).f_ab k i q = e (mixed_design a b i) k q) := by
  have htr : (get_sobol_sample e a b).eval_calls
      = [a, b] ++ (List.finRange n_poi).map (mixed_design a b) := by
    simp [get_sobol_sample, sobol_ab_foldl_trace]
  refine ⟨htr, ?_, ?_, ?_⟩
  · rw [htr]
    simp only [List.length_append, List.length_cons, List.length_nil,
      List.length_map, List.length_finRange]
    omega
  · intro i
    rw [htr]
    simp [List.getElem?_map, finRange_getElem?]
  · intro k i q
    have hacc : (get_sobol_sample e a b).f_ab k i q
        = if i ∈ List.finRange n_poi then e (mixed_design a b i) k q
          else (fun (_ : Fin N) (_ : Fin n_poi) (_ : Fin n_qoi) => (0 : ℚ)) k i q := by
      simp only [get_sobol_sample]
      rw [sobol_ab_foldl_acc]
    rw [hacc]
    simp [List.mem_finRange]

/-- C3: the uniform sampler attached by `get_samp_dist` is the paired
`saltelli_sample` closure over one quasi-random base sequence of dimension
`2*n_poi`, and the two returned samples read the same base row `k` through
the lower and upper halves of its coordinates, linearly rescaled from `[0,1]`
to the per-parameter bounds. -/
theorem saltelli_sample_uniform_pairing {n n_poi : ℕ}
    (ext : Externals n_poi) (p : Fin 2 → Fin n_poi → ℚ)
    (base : Fin n → Fin (n_poi + n_poi) → ℚ) (k : Fin n) (j : Fin n_poi) :
    get_samp_dist ext "uniform" p
      = Except.ok (SampFn.pair fun m => saltelli_sample (ext.sobol_seq m) p)
    ∧ (saltelli_sample base p).1 k j
        = p 0 j + (p 1 j - p 0 j) * base k (Fin.castAdd n_poi j)
    ∧ (saltelli_sample base p).2 k j
        = p 0 j + (p 1 j - p 0 j) * base k (Fin.natAdd n_poi j) :=
  ⟨rfl, rfl, rfl⟩

/-- C4 counterexample: at the concrete externals `ext0` and parameter matrix
`dp0`, the sampler that `get_samp_dist` attaches for the distribution tag
`normal` is not a paired sampler of any kind (it is the pseudo-random
`np.random.randn` single-matrix closure), so no Sobol sample pair for tag
`normal` is produced from a shared quasi-random base. -/
theorem get_samp_dist_normal_not_paired :
    ¬ ∃ f, get_samp_dist ext0 "normal" dp0 = Except.ok (SampFn.pair f) := by
  rintro ⟨f, hf⟩
  rw [show get_samp_dist ext0 "normal" dp0
      = Except.ok (SampFn.single fun c n k j =>
          ext0.randn c n k j * ext0.sqrt (dp0 1 j) + dp0 0 j) from rfl] at hf
  injection hf with h
  exact SampFn.noConfusion h

/-- C4 amended: for the distribution tag `saltellinormal` (not `normal`,
whose tag attaches an independent pseudo-random sampler), the attached
sampler is the paired `saltelli_normal` closure over the same single
`2*n_poi`-dimensional quasi-random base as the uniform case, and each half
is transformed through the inverse standard-normal CDF, scaled by the square
root of the variance row and shifted by the mean row, per parameter. -/
theorem get_samp_dist_saltellinormal_pairing {n n_poi : ℕ}
    (ext : Externals n_poi) (p : Fin 2 → Fin n_poi → ℚ)
    (base : Fin n → Fin (n_poi + n_poi) → ℚ) (k : Fin n) (j : Fin n_poi) :
    get_samp_dist ext "saltellinormal" p
      = Except.ok (SampFn.pair fun m =>
          saltelli_normal (ext.sobol_seq m) ext.norm_ppf ext.sqrt p)
    ∧ (saltelli_normal base ext.norm_ppf ext.sqrt p).1 k j
        = ext.norm_ppf (base k (Fin.castAdd n_poi j)) * ext.sqrt (p 1 j) + p 0 j
    ∧ (saltelli_normal base ext.norm_ppf ext.sqrt p).2 k j
        = ext.norm_ppf (base k (Fin.natAdd n_poi j)) * ext.sqrt (p 1 j) + p 0 j :=
  ⟨rfl, rfl, rfl⟩

/-- C9: a distribution tag outside the dispatched families makes
`get_samp_dist` fail with the invalid-distribution configuration error
(raised as a Python `Exception` at src/gsa.py lines 346-347). -/
theorem get_samp_dist_invalid_dist {n_poi : ℕ} (ext : Externals n_poi)
    (p : Fin 2 → Fin n_poi → ℚ) (dist : String)
    (h : pyLower dist ∉ (["normal", "saltellinormal", "uniform", "exponential",
        "beta", "InverseCDF"] : List String)) :
    get_samp_dist ext dist p = Except.error "Invalid value for gsa_options.dist. Supported distributions are normal, uniform, exponential, beta, and InverseCDF" := by
  simp only [List.mem_cons, List.not_mem_nil, or_false, not_or] at h
  obtain ⟨h1, h2, h3, h4, h5, h6⟩ := h
  simp [get_samp_dist, h1, h2, h3, h4, h5, h6]

/-- Witness for C9 at the concrete unsupported tag `cauchy`. -/
theorem get_samp_dist_invalid_dist_witness :
    (pyLower "cauchy" ∉ (["normal", "saltellinormal", "uniform", "exponential",
        "beta", "InverseCDF"] : List String))
    ∧ get_samp_dist ext0 "cauchy" dp0 = Except.error "Invalid value for gsa_options.dist. Supported distributions are normal, uniform, exponential, beta, and InverseCDF" :=
  ⟨by decide, get_samp_dist_invalid_dist ext0 dp0 "cauchy" (by decide)⟩

/-- C5 counterexample: at the concrete trajectory with base point `(0, 1)`,
identity sign matrix, swap permutation and perturbation distance `2/3`
(levels 4), the first generated row differs from the formula
`theta*J + (pert/2)*((2B - J)*D + J)*P` of the claim: the source multiplies
the whole sum, base-point term included, by the permutation matrix. -/
theorem get_morris_poi_sample_formula_cex :
    get_morris_poi_sample 1 2 (fun _ j => ((j : ℕ) : ℚ)) (fun _ _ => 1)
        (fun _ => Equiv.swap 0 1) (2 / 3) ⟨0, by decide⟩ 0
      ≠ morris_block_claim (fun j : Fin 2 => ((j : ℕ) : ℚ)) (fun _ : Fin 2 => 1)
          (Equiv.swap (0 : Fin 2) 1) (2 / 3) (0 : Fin (2 + 1)) (0 : Fin 2) := by
  have hL : get_morris_poi_sample 1 2 (fun _ j => ((j : ℕ) : ℚ)) (fun _ _ => 1)
      (fun _ => Equiv.swap 0 1) (2 / 3) ⟨0, by decide⟩ 0 = 1 := by
    simp only [get_morris_poi_sample, morris_samp_mat, matmul, onesJ, trilB, diagD,
      permP, Fin.sum_univ_two]
    norm_num [Equiv.swap_apply_left, Equiv.swap_apply_right]
  have hR : morris_block_claim (fun j : Fin 2 => ((j : ℕ) : ℚ)) (fun _ : Fin 2 => 1)
      (Equiv.swap (0 : Fin 2) 1) (2 / 3) (0 : Fin (2 + 1)) (0 : Fin 2) = 0 := by
    simp only [morris_block_claim, matmul, onesJ, trilB, diagD, permP,
      Fin.sum_univ_two]
    norm_num [Equiv.swap_apply_left, Equiv.swap_apply_right]
  rw [hL, hR]
  norm_num

/-- C5 amended: each trajectory block of the stacked Morris sample equals
`(theta*J + (pert/2)*((2B - J)*D + J)) * P` — the permutation matrix
multiplies the whole sum, including the broadcast base point — with `J` the
all-ones matrix, `B` the strictly-lower-triangular ones matrix, `D` the
random sign diagonal and `P` the random permutation matrix of that
trajectory; block `b` occupies the `n_poi+1` consecutive rows starting at
row `b*(n_poi+1)`. -/
theorem get_morris_poi_sample_blocks (n_samp n_poi : ℕ)
    (random_samp d : Fin n_samp → Fin n_poi → ℚ)
    (s : Fin n_samp → Equiv.Perm (Fin n_poi)) (pert : ℚ)
    (b : Fin n_samp) (t : Fin (n_poi + 1)) (c : Fin n_poi)
    (h : (b : ℕ) * (n_poi + 1) + (t : ℕ) < n_samp * (n_poi + 1)) :
    get_morris_poi_sample n_samp n_poi random_samp d s pert
        ⟨(b : ℕ) * (n_poi + 1) + (t : ℕ), h⟩ c
      = matmul
          (fun r c2 => random_samp b c2 * onesJ n_poi r c2 +
            pert / 2 *
              (matmul (fun x y => 2 * trilB n_poi x y - onesJ n_poi x y)
                  (diagD (d b)) r c2 + onesJ n_poi r c2))
          (permP (s b)) t c := by
  have hdiv : ((b : ℕ) * (n_poi + 1) + (t : ℕ)) / (n_poi + 1) = (b : ℕ) := by
    rw [Nat.mul_comm, Nat.mul_add_div (Nat.succ_pos n_poi)]
    simp [Nat.div_eq_of_lt t.isLt]
  have hmod : ((b : ℕ) * (n_poi + 1) + (t : ℕ)) % (n_poi + 1) = (t : ℕ) := by
    rw [Nat.mul_comm, Nat.mul_add_mod]
    exact Nat.mod_eq_of_lt t.isLt
  have hx : ((b : ℕ) * (n_poi + 1) + (t : ℕ)) / (n_poi + 1) < n_samp := by
    rw [hdiv]
    exact b.isLt
  have hm2 : ((b : ℕ) * (n_poi + 1) + (t : ℕ)) % (n_poi + 1) < n_poi + 1 :=
    Nat.mod_lt _ (Nat.succ_pos n_poi)
  show morris_samp_mat (random_samp ⟨_, hx⟩) (d ⟨_, hx⟩) (s ⟨_, hx⟩) pert
      ⟨_, hm2⟩ c = _
  rw [show (⟨((b : ℕ) * (n_poi + 1) + (t : ℕ)) / (n_poi + 1), hx⟩ : Fin n_samp)
        = b from Fin.ext hdiv,
    show (⟨((b : ℕ) * (n_poi + 1) + (t : ℕ)) % (n_poi + 1), hm2⟩ : Fin (n_poi + 1))
        = t from Fin.ext hmod]
  rfl

/-- Witness for C5 at one trajectory over one parameter with the identity
permutation. -/
theorem get_morris_poi_sample_blocks_witness :
    ((0 : Fin 1) : ℕ) * (1 + 1) + ((0 : Fin 2) : ℕ) < 1 * (1 + 1)
    ∧ get_morris_poi_sample 1 1 (fun _ _ => 0) (fun _ _ => 1)
        (fun _ => Equiv.refl (Fin 1)) (2 / 3)
        ⟨((0 : Fin 1) : ℕ) * (1 + 1) + ((0 : Fin 2) : ℕ), by decide⟩ 0
      = matmul
          (fun r c2 => (0 : ℚ) * onesJ 1 r c2 +
            2 / 3 / 2 *
              (matmul (fun x y => 2 * trilB 1 x y - onesJ 1 x y)
                  (diagD fun _ => (1 : ℚ)) r c2 + onesJ 1 r c2))
          (permP (Equiv.refl (Fin 1))) 0 0 :=
  ⟨by decide,
    get_morris_poi_sample_blocks 1 1 (fun _ _ => 0) (fun _ _ => 1)
      (fun _ => Equiv.refl (Fin 1)) (2 / 3) 0 0 0 (by decide)⟩

/-- C6 (code defect): `calculate_morris` cannot compute the Morris
statistics for any input.  After the single model evaluation it computes
`n_samp = morris_samp.shape[0]/(n_poi+1)` with Python's true division and
passes the resulting float to `np.empty`, which raises `TypeError`; the
block-separation loop that would follow also writes
`f_eval_seperated[n_samp,:,:]` using the total count instead of the loop
index.  The embedding therefore returns the error for every input. -/
theorem calculate_morris_always_raises {M n_poi n_qoi : ℕ}
    (eval_fcn : (Fin M → Fin n_poi → ℚ) → Fin M → Fin n_qoi → ℚ)
    (morris_samp : Fin M → Fin n_poi → ℚ) (pert : ℚ) :
    calculate_morris eval_fcn morris_samp pert
      = Except.error "TypeError: 'float' object cannot be interpreted as an integer" :=
  rfl

/-- C10: constructing `GsaOptions` with `run = false` forces `run_sobol` and
`run_morris` to false regardless of the arguments, and `run_gsa` on such
options (for any model whose distribution dispatch succeeds) returns the
freshly constructed `GsaResults` with every field still at its `np.nan`
default. -/
theorem run_gsa_run_false {n_poi n_qoi : ℕ} (ext : Externals n_poi)
    (dist : String) (p : Fin 2 → Fin n_poi → ℚ)
    (eval_fcn : (n : ℕ) → (Fin n → Fin n_poi → ℚ) → Fin n → Fin n_qoi → ℚ)
    (rs rm : Bool) (ns nm l : ℕ)
    (h : ∃ sf, get_samp_dist ext dist p = Except.ok sf) :
    (GsaOptions.make false rs rm ns nm l).run_sobol = false
    ∧ (GsaOptions.make false rs rm ns nm l).run_morris = false
    ∧ run_gsa ext dist p eval_fcn (GsaOptions.make false rs rm ns nm l)
        = Except.ok GsaResults.init
    ∧ GsaResults.init.sobol_base = none ∧ GsaResults.init.sobol_tot = none
    ∧ GsaResults.init.f_a = none ∧ GsaResults.init.f_b = none
    ∧ GsaResults.init.f_d = none ∧ GsaResults.init.f_ab = none
    ∧ GsaResults.init.samp_d = none
    ∧ GsaResults.init.morris_variance = none
    ∧ GsaResults.init.morris_mean_abs = none
    ∧ GsaResults.init.morris_mean = none := by
  obtain ⟨sf, hs⟩ := h
  refine ⟨rfl, rfl, ?_, rfl, rfl, rfl, rfl, rfl, rfl, rfl, rfl, rfl, rfl⟩
  simp only [run_gsa, hs]
  rfl

/-- Witness for C10: the tag `uniform` dispatches successfully at the
concrete externals, and the options built with `run = false` but
`run_sobol = run_morris = true` still skip both pipelines. -/
theorem run_gsa_run_false_witness :
    (GsaOptions.make false true true 8 4 3).run_sobol = false
    ∧ (GsaOptions.make false true true 8 4 3).run_morris = false
    ∧ run_gsa ext0 "uniform" dp0
        (fun (n : ℕ) (_ : Fin n → Fin 1 → ℚ) (_ : Fin n) (_ : Fin 1) => (0 : ℚ))
        (GsaOptions.make false true true 8 4 3)
        = Except.ok GsaResults.init
    ∧ GsaResults.init.sobol_base = none ∧ GsaResults.init.sobol_tot = none
    ∧ GsaResults.init.f_a = none ∧ GsaResults.init.f_b = none
    ∧ GsaResults.init.f_d = none ∧ GsaResults.init.f_ab = none
    ∧ GsaResults.init.samp_d = none
    ∧ GsaResults.init.morris_variance = none
    ∧ GsaResults.init.morris_mean_abs = none
    ∧ GsaResults.init.morris_mean = none :=
  run_gsa_run_false ext0 "uniform" dp0
    (fun (n : ℕ) (_ : Fin n → Fin 1 → ℚ) (_ : Fin n) (_ : Fin 1) => (0 : ℚ))
    true true 8 4 3
    ⟨SampFn.pair fun m => saltelli_sample (ext0.sobol_seq m) dp0, rfl⟩
